import Mathlib

/-!
Verification development for the pybind11 binding generator of this
repository (bindings/python/scripts/generate.py).

The generator consumes a JSON-serialised AST: every node is a dict with
keys kind, name, element_type, line, column, depth and members.  Python
strings are modelled as lists of characters (Str); all dictionary keys
used by the generator are present on the nodes it reads, per the input
contract, so node access is total.
-/

abbrev Str := List Char

def str (s : String) : Str := s.toList

/-- Python str.replace(pat, rep): replace non-overlapping occurrences from
left to right.  The fuel argument is initialised with the length of the
scanned string; every step consumes at least one character when pat is
nonempty (all patterns used by the source are nonempty), so the zero-fuel
branch is never reached on those calls. -/
def replFuel (pat rep : Str) : Nat → Str → Str
| 0, s => s
| _ + 1, [] => []
| fuel + 1, c :: rest =>
  if pat.isPrefixOf (c :: rest) then rep ++ replFuel pat rep fuel ((c :: rest).drop pat.length)
  else c :: replFuel pat rep fuel rest

def replaceAll (pat rep s : Str) : Str := replFuel pat rep s.length s

/-- Python str.lower() on the ASCII tags used by the source. -/
def lowerStr (s : String) : Str := s.toList.map Char.toLower

/-- The normalisation chain .replace("struct ", "").replace("pcl::", "")
applied by the source to type-reference and base-specifier names. -/
def normName (s : Str) : Str :=
  replaceAll (str "pcl::") (str "") (replaceAll (str "struct ") (str "") s)

/-- One AST node, as read from the parsed JSON document. -/
inductive Item where
| mk (kind : String) (name : Str) (element_type : String) (line column depth : Nat)
     (members : List Item)

def Item.kind : Item → String
| .mk k _ _ _ _ _ _ => k

def Item.name : Item → Str
| .mk _ n _ _ _ _ _ => n

def Item.element_type : Item → String
| .mk _ _ et _ _ _ _ => et

def Item.line : Item → Nat
| .mk _ _ _ ln _ _ _ => ln

def Item.column : Item → Nat
| .mk _ _ _ _ col _ _ => col

def Item.depth : Item → Nat
| .mk _ _ _ _ _ d _ => d

def Item.members : Item → List Item
| .mk _ _ _ _ _ _ ms => ms

/-- Induction over a node and all members of its subtree. -/
theorem Item.indOn {P : Item → Prop}
    (step : ∀ i : Item, (∀ m ∈ i.members, P m) → P i) : ∀ i, P i
| .mk k n et ln col d ms => by
  refine step _ fun m hm => ?_
  exact Item.indOn step m
termination_by i => sizeOf i
decreasing_by
  have h1 : sizeOf m < sizeOf ms := List.sizeOf_lt_of_mem hm
  simp only [Item.mk.sizeOf_spec]
  omega

/-- One entry of the _skipped list built by bind.skip.  The source stores
item["line"] under both the "line" and the "column" key (generate.py line
108 reads self.item["line"] for the column field). -/
structure SkipRec where
  line : Nat
  column : Nat
  kind : String
  name : Str
deriving DecidableEq

/-- One entry of the _state_stack, pushed by handle_node. -/
structure Frame where
  kind : String
  name : Str
  depth : Nat
deriving DecidableEq

/-- The mutable state of one bind object.  The head of state_stack is the
top of the stack (the source appends at the end and reads index -1).  The
_inclusion_list field of the source is omitted: no live code ever writes
or reads it (handle_inclusion_directive is a pass). -/
structure BState where
  state_stack : List Frame
  linelist : List Str
  skipped : List SkipRec
deriving DecidableEq

inductive GErr where
| emptyJson
| keyError (kind : String)
deriving DecidableEq

/-- The distinct callables stored in bind.kind_functions.  All of
handled_by_pybind, handled_elsewhere, no_need_to_handle and unsure are
bound to bind.skip, so they are one behaviour. -/
inductive Handler where
| skipH
| namespaceH
| constructorH
| structDeclH
| inclusionH
deriving DecidableEq

/-- bind.kind_functions, entry for entry.  A kind absent from the dict
gives none (a KeyError in the source). -/
def kind_functions : String → Option Handler
| "TRANSLATION_UNIT" => some .skipH
| "NAMESPACE" => some .namespaceH
| "CXX_BASE_SPECIFIER" => some .skipH
| "CXX_METHOD" => some .skipH
| "CONSTRUCTOR" => some .constructorH
| "INCLUSION_DIRECTIVE" => some .inclusionH
| "STRUCT_DECL" => some .structDeclH
| "CLASS_DECL" => some .structDeclH
| "VAR_DECL" => some .skipH
| "PARM_DECL" => some .skipH
| "FIELD_DECL" => some .skipH
| "ANONYMOUS_UNION_DECL" => some .skipH
| "ANONYMOUS_STRUCT_DECL" => some .skipH
| "FRIEND_DECL" => some .skipH
| "FUNCTION_DECL" => some .skipH
| "CALL_EXPR" => some .skipH
| "UNEXPOSED_EXPR" => some .skipH
| "MEMBER_REF_EXPR" => some .skipH
| "DECL_REF_EXPR" => some .skipH
| "ARRAY_SUBSCRIPT_EXPR" => some .skipH
| "CXX_THROW_EXPR" => some .skipH
| "INIT_LIST_EXPR" => some .skipH
| "OBJ_BOOL_LITERAL_EXPR" => some .skipH
| "CXX_NULL_PTR_LITERAL_EXPR" => some .skipH
| "CXX_STATIC_CAST_EXPR" => some .skipH
| "PAREN_EXPR" => some .skipH
| "CXX_DELETE_EXPR" => some .skipH
| "INTEGER_LITERAL" => some .skipH
| "FLOATING_LITERAL" => some .skipH
| "STRING_LITERAL" => some .skipH
| "OBJC_STRING_LITERAL" => some .skipH
| "ALIGNED_ATTR" => some .skipH
| "BINARY_OPERATOR" => some .skipH
| "UNARY_OPERATOR" => some .skipH
| "MACRO_DEFINITION" => some .skipH
| "MACRO_INSTANTIATION" => some .skipH
| "NAMESPACE_REF" => some .skipH
| "TYPE_REF" => some .skipH
| "MEMBER_REF" => some .skipH
| "OVERLOADED_DECL_REF" => some .skipH
| "TEMPLATE_REF" => some .skipH
| "VARIABLE_REF" => some .skipH
| "COMPOUND_STMT" => some .skipH
| "RETURN_STMT" => some .skipH
| "IF_STMT" => some .skipH
| "FOR_STMT" => some .skipH
| "DECL_STMT" => some .skipH
| "SWITCH_STMT" => some .skipH
| "CASE_STMT" => some .skipH
| "DEFAULT_STMT" => some .skipH
| "CXX_TRY_STMT" => some .skipH
| "CXX_CATCH_STMT" => some .skipH
| "CLASS_TEMPLATE" => some .skipH
| "TEMPLATE_NON_TYPE_PARAMETER" => some .skipH
| "FUNCTION_TEMPLATE" => some .skipH
| _ => none

/-- Python substring membership `needle in hay` on strings. -/
def isSubstring (needle : Str) : Str → Bool
| [] => needle.isEmpty
| c :: rest => needle.isPrefixOf (c :: rest) || isSubstring needle rest

/-- The line appended by bind.handle_namespace. -/
def nsFrag (name : Str) : Str := str "namespace " ++ name ++ str "\x7b"

/-- Member-exposure line emitted by bind.handle_struct_decl for one field
item, both in the anonymous-flattening pass and the direct-field pass
(the source emits the same text in both blocks). -/
def fieldLine (selfName : Str) (field : Item) : Str :=
  if field.element_type = "ConstantArray" then
    str ".def_property_readonly(\"" ++ field.name ++ str "\", [](" ++ selfName ++
      str "& obj) \x7breturn obj." ++ field.name ++ str "; \x7d)"
  else
    str ".def_readwrite(\"" ++ field.name ++ str "\", &" ++ selfName ++ str "::" ++
      field.name ++ str ")"

/-- Method-exposure line emitted by bind.handle_struct_decl. -/
def methodLine (selfName mname : Str) : Str :=
  str ".def(\"" ++ mname ++ str "\", py::overload_cast<>(&" ++ selfName ++ str "::" ++
    mname ++ str "))"

mutual

/-- bind.get_fields_from_anonymous: walk the members of the given item,
collect FIELD_DECL members and recurse into anonymous union or struct
members. -/
def get_fields_from_anonymous : Item → List Item
| .mk _ _ _ _ _ _ ms => gfaList ms

def gfaList : List Item → List Item
| [] => []
| sub :: rest =>
  (if sub.kind = "FIELD_DECL" then [sub]
   else if sub.kind = "ANONYMOUS_UNION_DECL" ∨ sub.kind = "ANONYMOUS_STRUCT_DECL" then
     get_fields_from_anonymous sub
   else []) ++ gfaList rest

end

/-- First block of bind.handle_struct_decl: the registration line, with
the template type-reference rewriting of class_name (the last TYPE_REF
member wins, as in the source loop) and the base-specifier list joined
with "," and normalised after joining. -/
def structHeadLine (i : Item) : Str :=
  let class_name := i.members.foldl
    (fun acc sub =>
      if sub.kind = "TYPE_REF" then i.name ++ str "<" ++ normName sub.name ++ str ">"
      else acc)
    i.name
  let basesList := i.members.filterMap
    (fun sub => if sub.kind = "CXX_BASE_SPECIFIER" then some sub.name else none)
  if basesList ≠ [] then
    str "py::class_<" ++ class_name ++ str ", " ++
      normName (List.intercalate (str ",") basesList) ++
      str ">(m, \"" ++ class_name ++ str "\")"
  else
    str "py::class_<" ++ class_name ++ str ">(m, \"" ++ class_name ++ str "\")"

/-- Anonymous-flattening pass of bind.handle_struct_decl: the source runs
get_fields_from_anonymous on every member, whatever its kind. -/
def anonPassLines (i : Item) : List Str :=
  i.members.flatMap
    (fun sub => (get_fields_from_anonymous sub).map (fieldLine i.name))

/-- Second member pass of bind.handle_struct_decl: one loop over the
members, emitting a field exposure for FIELD_DECL members and a method
exposure for CXX_METHOD members inside the same iteration. -/
def memberPassLines (i : Item) : List Str :=
  i.members.flatMap
    (fun sub =>
      (if sub.kind = "FIELD_DECL" then [fieldLine i.name sub] else []) ++
      (if sub.kind = "CXX_METHOD" then
        -- The source guard is `sub_item["name"] not in ("PCL_DEPRECATED")`.
        -- ("PCL_DEPRECATED") is a parenthesised string, not a tuple, so the
        -- Python `in` is a substring test against that string.
        (if ¬ (isSubstring sub.name (str "PCL_DEPRECATED")) then
          [methodLine i.name sub.name]
        else [])
      else []))

/-- Lines appended by bind.handle_struct_decl, in order: the registration
line, the default-constructor line, the anonymous-flattening pass, then
the member pass. -/
def structDeclFrags (i : Item) : List Str :=
  structHeadLine i :: str ".def(py::init<>())" :: (anonPassLines i ++ memberPassLines i)

/-- The parameter_type_list built by bind.handle_constructor, one loop
iteration per member. -/
def parameterTypeList (i : Item) : List Str :=
  i.members.flatMap fun sub =>
    if sub.kind = "PARM_DECL" then
      if sub.element_type = "LValueReference" then
        sub.members.flatMap fun ss =>
          if ss.kind = "TYPE_REF" then [normName ss.name ++ str " &"] else []
      else if sub.element_type = "Elaborated" then
        (sub.members.foldl
          (fun (p : Str × List Str) ss =>
            let p1 := if ss.kind = "NAMESPACE_REF" then (p.1 ++ ss.name ++ str "::", p.2)
                      else p
            if ss.kind = "TYPE_REF" then (p1.1, p1.2 ++ [p1.1 ++ ss.name]) else p1)
          (str "", [])).2
      else if sub.element_type = "Float" ∨ sub.element_type = "Int" then
        [lowerStr sub.element_type]
      else
        [(sub.element_type).toList]
    else []

/-- The comma-joined parameter type string of bind.handle_constructor. -/
def joinedParamTypes (i : Item) : Str :=
  List.intercalate (str ",") (parameterTypeList i)

/-- Lines appended by bind.handle_constructor: one init registration when
the joined parameter type string is nonempty (Python truthiness of the
joined string), nothing otherwise. -/
def constructorFrags (i : Item) : List Str :=
  if joinedParamTypes i ≠ [] then
    [str ".def(py::init<" ++ joinedParamTypes i ++ str ">())"]
  else []

/-- bind.skip: record the current item.  The column field receives
self.item["line"], exactly as the source does. -/
def bindSkip (i : Item) (s : BState) : BState :=
  { s with skipped := s.skipped ++
      [{ line := i.line, column := i.line, kind := i.kind, name := i.name }] }

/-- Dispatch of the stored kind_functions entry for the current item. -/
def applyHandler : Handler → Item → BState → BState
| .skipH, i, s => bindSkip i s
| .namespaceH, i, s => { s with linelist := s.linelist ++ [nsFrag i.name] }
| .structDeclH, i, s => { s with linelist := s.linelist ++ structDeclFrags i }
| .constructorH, i, s => { s with linelist := s.linelist ++ constructorFrags i }
| .inclusionH, _, s => s

/-- bind.end_scope: append a closing token chosen from the kind of the
top stack frame.  The source checks STRUCT_DECL twice (lines 121 and 123,
a duplicated branch) and has no CLASS_DECL branch; the duplication is kept
verbatim here. -/
def end_scope (s : BState) : BState :=
  match s.state_stack with
  | [] => s
  | top :: _ =>
    if top.kind = "NAMESPACE" then { s with linelist := s.linelist ++ [str "\x7d"] }
    else if top.kind = "STRUCT_DECL" then { s with linelist := s.linelist ++ [str ";"] }
    else if top.kind = "STRUCT_DECL" then { s with linelist := s.linelist ++ [str ";"] }
    else if top.kind = "CLASS_TEMPLATE" then { s with linelist := s.linelist ++ [str ";"] }
    else s

mutual

/-- bind.handle_node: push a frame, dispatch the kind handler, recurse
into the members, end the scope, pop the frame.  The recursion into the
members is unconditional: the source guards it with
`self.kind_functions[self.kind] is not self.skip`, but every evaluation of
`self.skip` creates a fresh bound-method object in CPython, so the stored
dict entry is never identical to it and the guard is always true. -/
def handle_node : Item → BState → Except GErr BState
| .mk k n et ln col d ms, s =>
  let s1 : BState :=
    { s with state_stack := { kind := k, name := n, depth := d } :: s.state_stack }
  match kind_functions k with
  | none => .error (.keyError k)
  | some h =>
    let s2 := applyHandler h (.mk k n et ln col d ms) s1
    match handle_members ms s2 with
    | .error e => .error e
    | .ok s3 =>
      let s4 := end_scope s3
      .ok { s4 with state_stack := s4.state_stack.tail }

def handle_members : List Item → BState → Except GErr BState
| [], s => .ok s
| m :: ms, s =>
  match handle_node m s with
  | .error e => .error e
  | .ok s1 => handle_members ms s1

end

/-- bind._initial_pybind_lines. -/
def initial_pybind_lines : List Str :=
  [str "#include <pybind11/pybind11.h>",
   str "#include <pybind11/stl.h>",
   str "#include <pybind11/stl_bind.h>",
   str "namespace py = pybind11;",
   str "using namespace py::literals;"]

/-- The text prepended by the loop of bind.handle_final:
"".join((f"PYBIND11_MODULE(module_name, m)", "begin brace", line)). -/
def moduleTok (module_name : Str) : Str :=
  str "PYBIND11_MODULE(" ++ module_name ++ str ", m)" ++ str "\x7b"

/-- The in-place loop of bind.handle_final: skip lines starting with
"namespace", prepend the module-opening text to the first other line and
stop; an all-namespace or empty list is left unchanged. -/
def prependModule (module_name : Str) : List Str → List Str
| [] => []
| l :: ls =>
  if (str "namespace").isPrefixOf l then l :: prependModule module_name ls
  else (moduleTok module_name ++ l) :: ls

/-- bind.handle_final: include line for the header, fixed pybind11
preamble, the (modified) linelist, one final closing brace. -/
def handle_final (filename module_name : Str) (linelist : List Str) : List Str :=
  (str "#include <" ++ filename ++ str ">") ::
    (initial_pybind_lines ++ prependModule module_name linelist ++ [str "\x7d"])

/-- Construction of a bind object: __init__ runs handle_node on the root
with empty stack, linelist and skipped list. -/
def bindRun (root : Item) : Except GErr BState :=
  handle_node root { state_stack := [], linelist := [], skipped := [] }

/-- generate(source).  utils.read_json lives outside the repository slice;
its result is modelled as an optional tree: none stands for an absent or
falsy JSON document, for which the source raises Exception("Empty json").
The filename of the include line is the last "/"-separated component of
the translation-unit name (str.split always returns a nonempty list, so
the Python [-1] never faults and getLastD is exact). -/
def generate : Option Item → Except GErr (List Str)
| none => .error .emptyJson
| some header_info =>
  match bindRun header_info with
  | .error e => .error e
  | .ok b =>
    let filename := (header_info.name.splitOn '/').getLastD []
    .ok (handle_final filename (str "pcl") b.linelist)

/-! ## Analysis layer: scope tokens, registry coverage, pure traversal mirror -/

/-- Scope tokens at fragment level: a brace-kind opening (the module
declaration and the namespace openers close with a brace), an
aggregate-kind opening (a py::class_ registration closes with a
semicolon), and the two closing tokens. -/
inductive Tok where
| openB
| openA
| closeB
| closeA
deriving DecidableEq

/-- Kind of an open bracket sitting on the matching stack. -/
inductive BK where
| brace
| agg
deriving DecidableEq

/-- Fragment-level token reading of one line that carries no module
prepend: a namespace opener (starts with "namespace " and ends with an
opening brace, which distinguishes it from the preamble namespace-alias
line), a py::class_ registration opener, or one of the closing lines. -/
def classifyRest (l : Str) : List Tok :=
  if (str "namespace ").isPrefixOf l && (str "\x7b").isSuffixOf l then [.openB]
  else if (str "py::class_<").isPrefixOf l then [.openA]
  else if l = str "\x7d" then [.closeB]
  else if l = str ";" then [.closeA]
  else []

/-- Fragment-level token reading of one emitted output line: the module
prepend produced by handle_final counts as a brace-kind opening glued to
the front of the line it was attached to. -/
def classify (l : Str) : List Tok :=
  if (moduleTok (str "pcl")).isPrefixOf l then
    .openB :: classifyRest (l.drop (moduleTok (str "pcl")).length)
  else classifyRest l

def toksOf : List Str → List Tok
| [] => []
| l :: ls => classify l ++ toksOf ls

/-- Stack automaton for LIFO matching of the scope tokens. -/
def runTok : List Tok → List BK → Option (List BK)
| [], st => some st
| .openB :: w, st => runTok w (.brace :: st)
| .openA :: w, st => runTok w (.agg :: st)
| .closeB :: w, st =>
  match st with
  | .brace :: st1 => runTok w st1
  | _ => none
| .closeA :: w, st =>
  match st with
  | .agg :: st1 => runTok w st1
  | _ => none

def countOpens (w : List Tok) : Nat := w.countP (fun t => t == .openB || t == .openA)

def countCloses (w : List Tok) : Nat := w.countP (fun t => t == .closeB || t == .closeA)

mutual

/-- Every kind in the subtree has an entry in kind_functions. -/
def allRegistered : Item → Bool
| .mk k _ _ _ _ _ ms => (kind_functions k).isSome && allRegisteredList ms

def allRegisteredList : List Item → Bool
| [] => true
| m :: ms => allRegistered m && allRegisteredList ms

end

mutual

/-- No CLASS_DECL and no CLASS_TEMPLATE node anywhere in the subtree. -/
def noCdCt : Item → Bool
| .mk k _ _ _ _ _ ms => !(k == "CLASS_DECL" || k == "CLASS_TEMPLATE") && noCdCtList ms

def noCdCtList : List Item → Bool
| [] => true
| m :: ms => noCdCt m && noCdCtList ms

end

mutual

/-- Some node of the subtree emits a line that does not start with
"namespace": a NAMESPACE node (whose closing brace qualifies) or a
STRUCT_DECL node. -/
def hasEmitter : Item → Bool
| .mk k _ _ _ _ _ ms => (k == "NAMESPACE" || k == "STRUCT_DECL") || hasEmitterList ms

def hasEmitterList : List Item → Bool
| [] => false
| m :: ms => hasEmitter m || hasEmitterList ms

end

/-- Lines the dispatched handler of a node appends to the linelist. -/
def handlerFrags (i : Item) : List Str :=
  match kind_functions i.kind with
  | some .namespaceH => [nsFrag i.name]
  | some .structDeclH => structDeclFrags i
  | some .constructorH => constructorFrags i
  | _ => []

/-- Closing lines end_scope appends for a node of the given kind. -/
def endScopeFrags (k : String) : List Str :=
  if k = "NAMESPACE" then [str "\x7d"]
  else if k = "STRUCT_DECL" then [str ";"]
  else if k = "CLASS_TEMPLATE" then [str ";"]
  else []

/-- Skip record the dispatched handler of a node appends, if any. -/
def skipRecOf (i : Item) : List SkipRec :=
  match kind_functions i.kind with
  | some .skipH => [{ line := i.line, column := i.line, kind := i.kind, name := i.name }]
  | _ => []

mutual

/-- Pure mirror of the lines handle_node appends for one subtree:
handler lines, then the lines of every member in source order, then the
closing lines for the node kind. -/
def emitFrags : Item → List Str
| .mk k n et ln col d ms =>
  handlerFrags (.mk k n et ln col d ms) ++ emitFragsList ms ++ endScopeFrags k

def emitFragsList : List Item → List Str
| [] => []
| m :: ms => emitFrags m ++ emitFragsList ms

end

mutual

/-- Pure mirror of the skip records handle_node appends for one subtree,
in preorder over every node of the subtree (the walker recurses into the
members of every node). -/
def skipRecs : Item → List SkipRec
| .mk k n et ln col d ms => skipRecOf (.mk k n et ln col d ms) ++ skipRecsList ms

def skipRecsList : List Item → List SkipRec
| [] => []
| m :: ms => skipRecs m ++ skipRecsList ms

end

def isOkE {α : Type} : Except GErr α → Bool
| .ok _ => true
| .error _ => false

def isKeyErrE {α : Type} : Except GErr α → Bool
| .error (.keyError _) => true
| _ => false

def okLines : Except GErr (List Str) → List Str
| .ok ls => ls
| .error _ => []

/-! ## Basic lemmas -/

theorem isPrefixOf_append_self (p rest : Str) : p.isPrefixOf (p ++ rest) = true := by
  induction p with
  | nil => simp [List.isPrefixOf]
  | cons a as ih => simp [List.isPrefixOf, ih]

theorem isPrefixOf_cons_ne {a b : Char} (as bs : Str) (h : a ≠ b) :
    (a :: as).isPrefixOf (b :: bs) = false := by
  simp [List.isPrefixOf, h]

theorem isSuffixOf_append_self (p rest : Str) : p.isSuffixOf (rest ++ p) = true := by
  simp [List.isSuffixOf, List.reverse_append]

theorem runTok_append (w1 w2 : List Tok) (st : List BK) :
    runTok (w1 ++ w2) st = (runTok w1 st).bind (fun s => runTok w2 s) := by
  induction w1 generalizing st with
  | nil => simp [runTok]
  | cons t w ih =>
    cases t with
    | openB => simp [runTok, ih]
    | openA => simp [runTok, ih]
    | closeB =>
      cases st with
      | nil => simp [runTok]
      | cons b s =>
        cases b with
        | brace => simp [runTok, ih]
        | agg => simp [runTok]
    | closeA =>
      cases st with
      | nil => simp [runTok]
      | cons b s =>
        cases b with
        | brace => simp [runTok]
        | agg => simp [runTok, ih]

theorem runTok_frame (w : List Tok) (st st1 t : List BK)
    (h : runTok w st = some st1) : runTok w (st ++ t) = some (st1 ++ t) := by
  induction w generalizing st with
  | nil =>
    simp [runTok] at h
    simp [runTok, h]
  | cons tok w ih =>
    cases tok with
    | openB => exact ih (.brace :: st) h
    | openA => exact ih (.agg :: st) h
    | closeB =>
      cases st with
      | nil => simp [runTok] at h
      | cons b s =>
        cases b with
        | brace => exact ih s h
        | agg => simp [runTok] at h
    | closeA =>
      cases st with
      | nil => simp [runTok] at h
      | cons b s =>
        cases b with
        | brace => simp [runTok] at h
        | agg => exact ih s h

theorem runTok_count (w : List Tok) (st st1 : List BK)
    (h : runTok w st = some st1) :
    st.length + countOpens w = st1.length + countCloses w := by
  induction w generalizing st with
  | nil =>
    simp [runTok] at h
    simp [countOpens, countCloses, h]
  | cons tok w ih =>
    cases tok with
    | openB =>
      have := ih (.brace :: st) h
      simp [countOpens, countCloses, List.countP_cons] at this ⊢
      omega
    | openA =>
      have := ih (.agg :: st) h
      simp [countOpens, countCloses, List.countP_cons] at this ⊢
      omega
    | closeB =>
      cases st with
      | nil => simp [runTok] at h
      | cons b s =>
        cases b with
        | brace =>
          have := ih s h
          simp [countOpens, countCloses, List.countP_cons] at this ⊢
          omega
        | agg => simp [runTok] at h
    | closeA =>
      cases st with
      | nil => simp [runTok] at h
      | cons b s =>
        cases b with
        | brace => simp [runTok] at h
        | agg =>
          have := ih s h
          simp [countOpens, countCloses, List.countP_cons] at this ⊢
          omega

theorem toksOf_append (a b : List Str) : toksOf (a ++ b) = toksOf a ++ toksOf b := by
  induction a with
  | nil => simp [toksOf]
  | cons l ls ih => simp [toksOf, ih]

theorem kf_inv_namespaceH {k : String} (h : kind_functions k = some .namespaceH) :
    k = "NAMESPACE" := by
  unfold kind_functions at h
  split at h <;> simp_all

theorem kf_inv_structDeclH {k : String} (h : kind_functions k = some .structDeclH) :
    k = "STRUCT_DECL" ∨ k = "CLASS_DECL" := by
  unfold kind_functions at h
  split at h <;> simp_all

/-! ## Classification lemmas for the emitted line shapes -/

theorem classify_eq_classifyRest_of_head_ne (c : Char) (t : Str) (h0 : c ≠ 'P') :
    classify (c :: t) = classifyRest (c :: t) := by
  have hm : (moduleTok (str "pcl")).isPrefixOf (c :: t) = false := by
    rw [show moduleTok (str "pcl") = 'P' :: str "YBIND11_MODULE(pcl, m)\x7b" from rfl]
    exact isPrefixOf_cons_ne _ _ (Ne.symm h0)
  simp [classify, hm]

theorem classifyRest_head_ne (c : Char) (t : Str)
    (h2 : c ≠ 'n') (h3 : c ≠ 'p') (h4 : c ≠ '\x7d') (h5 : c ≠ ';') :
    classifyRest (c :: t) = [] := by
  have hn : (str "namespace ").isPrefixOf (c :: t) = false := by
    rw [show str "namespace " = 'n' :: str "amespace " from rfl]
    exact isPrefixOf_cons_ne _ _ (Ne.symm h2)
  have hp : (str "py::class_<").isPrefixOf (c :: t) = false := by
    rw [show str "py::class_<" = 'p' :: str "y::class_<" from rfl]
    exact isPrefixOf_cons_ne _ _ (Ne.symm h3)
  have hcb : ((c :: t) = str "\x7d") = False := by
    rw [show str "\x7d" = ['\x7d'] from rfl]
    simp [h4]
  have hsc : ((c :: t) = str ";") = False := by
    rw [show str ";" = [';'] from rfl]
    simp [h5]
  simp [classifyRest, hn, hp, hcb, hsc]

theorem classify_of_head (c : Char) (t : Str)
    (h1 : c ≠ 'P') (h2 : c ≠ 'n') (h3 : c ≠ 'p') (h4 : c ≠ '\x7d') (h5 : c ≠ ';') :
    classify (c :: t) = [] := by
  rw [classify_eq_classifyRest_of_head_ne c t h1]
  exact classifyRest_head_ne c t h2 h3 h4 h5

theorem classify_nsFrag (nm : Str) : classify (nsFrag nm) = [Tok.openB] := by
  have he : nsFrag nm = 'n' :: (str "amespace " ++ nm ++ str "\x7b") := rfl
  have h1 : (str "namespace ").isPrefixOf (nsFrag nm) = true := by
    rw [show nsFrag nm = str "namespace " ++ (nm ++ str "\x7b") from rfl]
    exact isPrefixOf_append_self _ _
  have h2 : (str "\x7b").isSuffixOf (nsFrag nm) = true := by
    rw [show nsFrag nm = str "namespace " ++ (nm ++ str "\x7b") from rfl,
        show str "namespace " ++ (nm ++ str "\x7b") =
          (str "namespace " ++ nm) ++ str "\x7b" by simp [List.append_assoc]]
    exact isSuffixOf_append_self _ _
  rw [he, classify_eq_classifyRest_of_head_ne _ _ (by decide), ← he]
  simp [classifyRest, h1, h2]

theorem classify_py (rest : Str) : classify (str "py::class_<" ++ rest) = [Tok.openA] := by
  have he : str "py::class_<" ++ rest = 'p' :: (str "y::class_<" ++ rest) := rfl
  have h1 : (str "namespace ").isPrefixOf (str "py::class_<" ++ rest) = false := by
    rw [he, show str "namespace " = 'n' :: str "amespace " from rfl]
    exact isPrefixOf_cons_ne _ _ (by decide)
  have h2 : (str "py::class_<").isPrefixOf (str "py::class_<" ++ rest) = true :=
    isPrefixOf_append_self _ _
  rw [he, classify_eq_classifyRest_of_head_ne _ _ (by decide), ← he]
  simp [classifyRest, h1, h2]

theorem classify_mod (l : Str) :
    classify (moduleTok (str "pcl") ++ l) = Tok.openB :: classifyRest l := by
  have hm : (moduleTok (str "pcl")).isPrefixOf (moduleTok (str "pcl") ++ l) = true :=
    isPrefixOf_append_self _ _
  simp [classify, hm, List.drop_left]

theorem ns9_nsFrag (nm : Str) : (str "namespace").isPrefixOf (nsFrag nm) = true := by
  rw [show nsFrag nm = str "namespace" ++ (str " " ++ (nm ++ str "\x7b")) from rfl]
  exact isPrefixOf_append_self _ _

theorem ns9_head_ne (c : Char) (t : Str) (h : c ≠ 'n') :
    (str "namespace").isPrefixOf (c :: t) = false := by
  rw [show str "namespace" = 'n' :: str "amespace" from rfl]
  exact isPrefixOf_cons_ne _ _ (Ne.symm h)

theorem classify_fieldLine (nm : Str) (f : Item) : classify (fieldLine nm f) = [] := by
  unfold fieldLine
  split
  · exact classify_of_head '.' _ (by decide) (by decide) (by decide) (by decide) (by decide)
  · exact classify_of_head '.' _ (by decide) (by decide) (by decide) (by decide) (by decide)

theorem classify_methodLine (nm mn : Str) : classify (methodLine nm mn) = [] := by
  unfold methodLine
  exact classify_of_head '.' _ (by decide) (by decide) (by decide) (by decide) (by decide)

theorem classify_structHeadLine (i : Item) :
    classify (structHeadLine i) = [Tok.openA] := by
  simp only [structHeadLine]
  split
  · exact classify_py _
  · exact classify_py _

/-! ## Token streams of the handler outputs -/

theorem toksOf_eq_nil (L : List Str) (h : ∀ l ∈ L, classify l = []) : toksOf L = [] := by
  induction L with
  | nil => rfl
  | cons l ls ih =>
    simp only [toksOf, h l (by simp)]
    exact ih (fun x hx => h x (by simp [hx]))

theorem toksOf_anonPassLines (i : Item) : toksOf (anonPassLines i) = [] := by
  apply toksOf_eq_nil
  intro l hl
  simp only [anonPassLines, List.mem_flatMap, List.mem_map] at hl
  obtain ⟨sub, _, f, _, rfl⟩ := hl
  exact classify_fieldLine _ _

theorem toksOf_memberPassLines (i : Item) : toksOf (memberPassLines i) = [] := by
  apply toksOf_eq_nil
  intro l hl
  simp only [memberPassLines, List.mem_flatMap] at hl
  obtain ⟨sub, _, hl⟩ := hl
  rcases List.mem_append.mp hl with h1 | h2
  · split at h1
    · simp at h1
      rw [h1]
      exact classify_fieldLine _ _
    · simp at h1
  · split at h2
    · split at h2
      · simp at h2
        rw [h2]
        exact classify_methodLine _ _
      · simp at h2
    · simp at h2

theorem toksOf_structDeclFrags (i : Item) : toksOf (structDeclFrags i) = [Tok.openA] := by
  have hinit : classify (str ".def(py::init<>())") = [] := by decide
  simp [structDeclFrags, toksOf, toksOf_append, classify_structHeadLine, hinit,
        toksOf_anonPassLines, toksOf_memberPassLines]

theorem toksOf_constructorFrags (i : Item) : toksOf (constructorFrags i) = [] := by
  unfold constructorFrags
  split
  · have h := classify_of_head '.'
      (str "def(py::init<" ++ (joinedParamTypes i ++ str ">())"))
      (by decide) (by decide) (by decide) (by decide) (by decide)
    simp only [toksOf, List.append_nil]
    exact h
  · rfl

/-! ## Reduction of the stateful traversal to the pure mirror -/

theorem end_scope_spec (top : Frame) (rest : List Frame) (L : List Str) (SK : List SkipRec) :
    end_scope ⟨top :: rest, L, SK⟩ = ⟨top :: rest, L ++ endScopeFrags top.kind, SK⟩ := by
  unfold end_scope endScopeFrags
  split_ifs <;> simp_all

theorem applyHandler_spec (h : Handler) (i : Item) (s : BState)
    (hreg : kind_functions i.kind = some h) :
    applyHandler h i s =
      { s with linelist := s.linelist ++ handlerFrags i,
               skipped := s.skipped ++ skipRecOf i } := by
  cases h <;> simp [applyHandler, bindSkip, handlerFrags, skipRecOf, hreg]

theorem handle_node_ok :
    ∀ i : Item, allRegistered i = true →
    ∀ s : BState, handle_node i s =
      .ok { state_stack := s.state_stack,
            linelist := s.linelist ++ emitFrags i,
            skipped := s.skipped ++ skipRecs i } := by
  refine Item.indOn ?_
  intro i IH hreg s
  obtain ⟨k, n, et, ln, col, d, ms⟩ := i
  simp only [Item.members] at IH
  have hra : (kind_functions k).isSome = true ∧ allRegisteredList ms = true := by
    simpa [allRegistered, Bool.and_eq_true] using hreg
  obtain ⟨h, hkf⟩ : ∃ h, kind_functions k = some h := Option.isSome_iff_exists.mp hra.1
  have hlist : ∀ ts : List Item,
      (∀ m ∈ ts, allRegistered m = true →
        ∀ s2 : BState, handle_node m s2 =
          .ok { state_stack := s2.state_stack,
                linelist := s2.linelist ++ emitFrags m,
                skipped := s2.skipped ++ skipRecs m }) →
      allRegisteredList ts = true →
      ∀ s2 : BState, handle_members ts s2 =
        .ok { state_stack := s2.state_stack,
              linelist := s2.linelist ++ emitFragsList ts,
              skipped := s2.skipped ++ skipRecsList ts } := by
    intro ts
    induction ts with
    | nil =>
      intro _ _ s2
      simp [handle_members, emitFragsList, skipRecsList]
    | cons m rest ihr =>
      intro hmem hra2 s2
      have hm2 : allRegistered m = true ∧ allRegisteredList rest = true := by
        simpa [allRegisteredList, Bool.and_eq_true] using hra2
      simp only [handle_members, hmem m (by simp) hm2.1 s2]
      rw [ihr (fun m2 hm3 => hmem m2 (by simp [hm3])) hm2.2 _]
      simp [emitFragsList, skipRecsList, List.append_assoc]
  simp only [handle_node, hkf]
  rw [applyHandler_spec h _ _ (by simpa [Item.kind] using hkf)]
  rw [hlist ms IH hra.2 _]
  simp only [Except.ok.injEq]
  rw [end_scope_spec]
  simp [emitFrags, skipRecs, List.append_assoc]

theorem handle_node_err :
    ∀ i : Item, allRegistered i = false →
    ∀ s : BState, isKeyErrE (handle_node i s) = true := by
  refine Item.indOn ?_
  intro i IH hreg s
  obtain ⟨k, n, et, ln, col, d, ms⟩ := i
  simp only [Item.members] at IH
  cases hkf : kind_functions k with
  | none => simp [handle_node, hkf, isKeyErrE]
  | some h =>
    have h2 : allRegisteredList ms = false := by
      rcases Bool.and_eq_false_iff.mp (by simpa [allRegistered] using hreg) with h1 | h2
      · simp [hkf] at h1
      · exact h2
    have hlist : ∀ ts : List Item,
        (∀ m ∈ ts, allRegistered m = false →
          ∀ s2 : BState, isKeyErrE (handle_node m s2) = true) →
        allRegisteredList ts = false →
        ∀ s2 : BState, isKeyErrE (handle_members ts s2) = true := by
      intro ts
      induction ts with
      | nil => intro _ hcontra _; simp [allRegisteredList] at hcontra
      | cons m rest ihr =>
        intro hmem hra2 s2
        rcases Bool.and_eq_false_iff.mp (by simpa [allRegisteredList] using hra2) with hm | hr
        · have := hmem m (by simp) hm s2
          cases hres : handle_node m s2 with
          | error e =>
            cases e with
            | emptyJson => rw [hres] at this; simp [isKeyErrE] at this
            | keyError k2 => simp [handle_members, hres, isKeyErrE]
          | ok s1 => rw [hres] at this; simp [isKeyErrE] at this
        · cases hres : handle_node m s2 with
          | error e =>
            cases e with
            | emptyJson =>
              by_cases hm : allRegistered m = true
              · rw [handle_node_ok m hm s2] at hres; cases hres
              · have := hmem m (by simp) (by simpa using hm) s2
                rw [hres] at this
                simp [isKeyErrE] at this
            | keyError k2 => simp [handle_members, hres, isKeyErrE]
          | ok s1 =>
            simp only [handle_members, hres]
            exact ihr (fun m2 hm2 => hmem m2 (by simp [hm2])) hr s1
    have hmain := hlist ms IH h2
      (applyHandler h (Item.mk k n et ln col d ms)
        { state_stack := { kind := k, name := n, depth := d } :: s.state_stack,
          linelist := s.linelist, skipped := s.skipped })
    simp only [handle_node, hkf]
    cases hres : handle_members ms
        (applyHandler h (Item.mk k n et ln col d ms)
          { state_stack := { kind := k, name := n, depth := d } :: s.state_stack,
            linelist := s.linelist, skipped := s.skipped }) with
    | error e =>
      rw [hres] at hmain
      cases e with
      | emptyJson => simp [isKeyErrE] at hmain
      | keyError k2 => simp [isKeyErrE]
    | ok s3 =>
      rw [hres] at hmain
      simp [isKeyErrE] at hmain

/-! ## handle_final and balance machinery -/

theorem prependModule_all_ns (m : Str) (L : List Str)
    (h : ∀ l ∈ L, (str "namespace").isPrefixOf l = true) :
    prependModule m L = L := by
  induction L with
  | nil => rfl
  | cons l ls ih =>
    simp [prependModule, h l (by simp), ih (fun x hx => h x (by simp [hx]))]

theorem prependModule_split (m : Str) (A : List Str) (l : Str) (R : List Str)
    (hA : ∀ p ∈ A, (str "namespace").isPrefixOf p = true)
    (hl : (str "namespace").isPrefixOf l = false) :
    prependModule m (A ++ l :: R) = A ++ (moduleTok m ++ l) :: R := by
  induction A with
  | nil => simp [prependModule, hl]
  | cons a as ih =>
    simp [prependModule, hA a (by simp), ih (fun x hx => hA x (by simp [hx]))]

theorem endScopeFrags_nil {k : String}
    (h1 : k ≠ "NAMESPACE") (h2 : k ≠ "STRUCT_DECL") (h3 : k ≠ "CLASS_TEMPLATE") :
    endScopeFrags k = [] := by
  simp [endScopeFrags, h1, h2, h3]

theorem ne_of_kf {k : String} {h : Handler} (hkf : kind_functions k = some h)
    (kk : String) (hno : kind_functions kk ≠ some h) : k ≠ kk :=
  fun he => hno (he ▸ hkf)

theorem balanced_append (X Y : List Tok)
    (hX : runTok X [] = some []) (hY : runTok Y [] = some []) :
    runTok (X ++ Y) [] = some [] := by
  simp [runTok_append, hX, hY]

theorem balanced_wrapB (W : List Tok) (h : runTok W [] = some []) :
    runTok (Tok.openB :: (W ++ [Tok.closeB])) [] = some [] := by
  have hf := runTok_frame W [] [] [.brace] h
  simp only [List.nil_append] at hf
  simp [runTok, runTok_append, hf]

theorem balanced_wrapA (W : List Tok) (h : runTok W [] = some []) :
    runTok (Tok.openA :: (W ++ [Tok.closeA])) [] = some [] := by
  have hf := runTok_frame W [] [] [.agg] h
  simp only [List.nil_append] at hf
  simp [runTok, runTok_append, hf]

theorem emit_balanced :
    ∀ i : Item, allRegistered i = true → noCdCt i = true →
      runTok (toksOf (emitFrags i)) [] = some [] := by
  refine Item.indOn ?_
  intro i IH hreg hcd
  obtain ⟨k, n, et, ln, col, d, ms⟩ := i
  simp only [Item.members] at IH
  have hra : (kind_functions k).isSome = true ∧ allRegisteredList ms = true := by
    simpa [allRegistered, Bool.and_eq_true] using hreg
  obtain ⟨h, hkf⟩ : ∃ h, kind_functions k = some h := Option.isSome_iff_exists.mp hra.1
  have hcd1 : (¬ k = "CLASS_DECL" ∧ ¬ k = "CLASS_TEMPLATE") ∧ noCdCtList ms = true := by
    simpa [noCdCt] using hcd
  have hkcd : k ≠ "CLASS_DECL" ∧ k ≠ "CLASS_TEMPLATE" := hcd1.1
  have hlist : ∀ ts : List Item,
      (∀ m ∈ ts, allRegistered m = true → noCdCt m = true →
        runTok (toksOf (emitFrags m)) [] = some []) →
      allRegisteredList ts = true → noCdCtList ts = true →
      runTok (toksOf (emitFragsList ts)) [] = some [] := by
    intro ts
    induction ts with
    | nil => intro _ _ _; simp [emitFragsList, toksOf, runTok]
    | cons m rest ihr =>
      intro hmem hra2 hcd2
      have h1 : allRegistered m = true ∧ allRegisteredList rest = true := by
        simpa [allRegisteredList, Bool.and_eq_true] using hra2
      have h2 : noCdCt m = true ∧ noCdCtList rest = true := by
        simpa [noCdCtList, Bool.and_eq_true] using hcd2
      have he : emitFragsList (m :: rest) = emitFrags m ++ emitFragsList rest := by
        simp [emitFragsList]
      rw [he, toksOf_append]
      exact balanced_append _ _ (hmem m (by simp) h1.1 h2.1)
        (ihr (fun m2 hm2 => hmem m2 (by simp [hm2])) h1.2 h2.2)
  have hchild : runTok (toksOf (emitFragsList ms)) [] = some [] :=
    hlist ms IH hra.2 hcd1.2
  cases h with
  | namespaceH =>
    have hkn : k = "NAMESPACE" := kf_inv_namespaceH hkf
    subst hkn
    have ht : toksOf (emitFrags (Item.mk "NAMESPACE" n et ln col d ms)) =
        Tok.openB :: (toksOf (emitFragsList ms) ++ [Tok.closeB]) := by
      have hfr : handlerFrags (Item.mk "NAMESPACE" n et ln col d ms) = [nsFrag n] := rfl
      have hes : endScopeFrags "NAMESPACE" = [str "\x7d"] := by decide
      have hcb : classify (str "\x7d") = [Tok.closeB] := by decide
      simp [emitFrags, hfr, hes, toksOf_append, toksOf, classify_nsFrag, hcb]
    rw [ht]
    exact balanced_wrapB _ hchild
  | structDeclH =>
    have hks : k = "STRUCT_DECL" := by
      rcases kf_inv_structDeclH hkf with h1 | h1
      · exact h1
      · exact absurd h1 hkcd.1
    subst hks
    have ht : toksOf (emitFrags (Item.mk "STRUCT_DECL" n et ln col d ms)) =
        Tok.openA :: (toksOf (emitFragsList ms) ++ [Tok.closeA]) := by
      have hfr : handlerFrags (Item.mk "STRUCT_DECL" n et ln col d ms) =
          structDeclFrags (Item.mk "STRUCT_DECL" n et ln col d ms) := rfl
      have hes : endScopeFrags "STRUCT_DECL" = [str ";"] := by decide
      have hca : classify (str ";") = [Tok.closeA] := by decide
      have hin : classify (str ".def(py::init<>())") = [] := by decide
      simp [emitFrags, hfr, hes, toksOf_append, toksOf, hca, hin,
        classify_structHeadLine, toksOf_anonPassLines, toksOf_memberPassLines]
    rw [ht]
    exact balanced_wrapA _ hchild
  | skipH =>
    have hesc : endScopeFrags k = [] :=
      endScopeFrags_nil (ne_of_kf hkf "NAMESPACE" (by decide))
        (ne_of_kf hkf "STRUCT_DECL" (by decide)) hkcd.2
    have hfr : handlerFrags (Item.mk k n et ln col d ms) = [] := by
      simp [handlerFrags, Item.kind, hkf]
    have ht : toksOf (emitFrags (Item.mk k n et ln col d ms)) =
        toksOf (emitFragsList ms) := by
      simp [emitFrags, hfr, hesc, toksOf_append, toksOf]
    rw [ht]
    exact hchild
  | constructorH =>
    have hesc : endScopeFrags k = [] :=
      endScopeFrags_nil (ne_of_kf hkf "NAMESPACE" (by decide))
        (ne_of_kf hkf "STRUCT_DECL" (by decide)) hkcd.2
    have hfr : handlerFrags (Item.mk k n et ln col d ms) =
        constructorFrags (Item.mk k n et ln col d ms) := by
      simp [handlerFrags, Item.kind, hkf]
    have ht : toksOf (emitFrags (Item.mk k n et ln col d ms)) =
        toksOf (emitFragsList ms) := by
      simp [emitFrags, hfr, hesc, toksOf_append, toksOf,
        toksOf_constructorFrags (Item.mk k n et ln col d ms)]
    rw [ht]
    exact hchild
  | inclusionH =>
    have hesc : endScopeFrags k = [] :=
      endScopeFrags_nil (ne_of_kf hkf "NAMESPACE" (by decide))
        (ne_of_kf hkf "STRUCT_DECL" (by decide)) hkcd.2
    have hfr : handlerFrags (Item.mk k n et ln col d ms) = [] := by
      simp [handlerFrags, Item.kind, hkf]
    have ht : toksOf (emitFrags (Item.mk k n et ln col d ms)) =
        toksOf (emitFragsList ms) := by
      simp [emitFrags, hfr, hesc, toksOf_append, toksOf]
    rw [ht]
    exact hchild

/-- Facts about one emitted line that the module-insertion argument needs:
the line carries no module prepend of its own, and if it starts with
"namespace" it is a namespace opener (one brace-kind opening token). -/
def LineOK (l : Str) : Prop :=
  classify l = classifyRest l ∧
  ((str "namespace").isPrefixOf l = true → classify l = [Tok.openB])

theorem lineOK_of_head (c : Char) (t : Str) (hP : c ≠ 'P') (hn : c ≠ 'n') :
    LineOK (c :: t) := by
  refine ⟨classify_eq_classifyRest_of_head_ne c t hP, fun h9 => ?_⟩
  rw [ns9_head_ne c t hn] at h9
  cases h9

theorem lineOK_nsFrag (nm : Str) : LineOK (nsFrag nm) := by
  constructor
  · exact classify_eq_classifyRest_of_head_ne 'n'
      (str "amespace " ++ nm ++ str "\x7b") (by decide)
  · intro _
    exact classify_nsFrag nm

theorem lineOK_structHeadLine (i : Item) : LineOK (structHeadLine i) := by
  simp only [structHeadLine]
  split
  · exact lineOK_of_head 'p' _ (by decide) (by decide)
  · exact lineOK_of_head 'p' _ (by decide) (by decide)

theorem lineOK_fieldLine (nm : Str) (f : Item) : LineOK (fieldLine nm f) := by
  unfold fieldLine
  split
  · exact lineOK_of_head '.' _ (by decide) (by decide)
  · exact lineOK_of_head '.' _ (by decide) (by decide)

theorem lineOK_methodLine (nm mn : Str) : LineOK (methodLine nm mn) := by
  unfold methodLine
  exact lineOK_of_head '.' _ (by decide) (by decide)

theorem lineOK_structDeclFrags (i : Item) :
    ∀ l ∈ structDeclFrags i, LineOK l := by
  intro l hl
  simp only [structDeclFrags, List.mem_cons] at hl
  rcases hl with rfl | hl
  · exact lineOK_structHeadLine i
  rcases hl with rfl | hl
  · exact ⟨by decide, by decide⟩
  rcases List.mem_append.mp hl with h1 | h2
  · simp only [anonPassLines, List.mem_flatMap, List.mem_map] at h1
    obtain ⟨sub, _, f, _, rfl⟩ := h1
    exact lineOK_fieldLine _ _
  · simp only [memberPassLines, List.mem_flatMap] at h2
    obtain ⟨sub, _, h2⟩ := h2
    rcases List.mem_append.mp h2 with h3 | h3
    · split at h3
      · simp at h3
        rw [h3]
        exact lineOK_fieldLine _ _
      · simp at h3
    · split at h3
      · split at h3
        · simp at h3
          rw [h3]
          exact lineOK_methodLine _ _
        · simp at h3
      · simp at h3

theorem lineOK_constructorFrags (i : Item) :
    ∀ l ∈ constructorFrags i, LineOK l := by
  intro l hl
  unfold constructorFrags at hl
  split at hl
  · simp at hl
    rw [hl]
    exact lineOK_of_head '.' _ (by decide) (by decide)
  · simp at hl

theorem lineOK_endScopeFrags (k : String) :
    ∀ l ∈ endScopeFrags k, LineOK l := by
  intro l hl
  unfold endScopeFrags at hl
  split_ifs at hl <;> simp at hl <;> rw [hl] <;> exact ⟨by decide, by decide⟩

theorem mem_emitFragsList {l : Str} {m : Item} {ms : List Item}
    (hm : m ∈ ms) (hl : l ∈ emitFrags m) : l ∈ emitFragsList ms := by
  induction ms with
  | nil => cases hm
  | cons m2 rest ih =>
    have he : emitFragsList (m2 :: rest) = emitFrags m2 ++ emitFragsList rest := by
      simp [emitFragsList]
    rw [he]
    rcases List.mem_cons.mp hm with rfl | hm2
    · exact List.mem_append.mpr (Or.inl hl)
    · exact List.mem_append.mpr (Or.inr (ih hm2))

theorem emit_lineOK : ∀ i : Item, ∀ l ∈ emitFrags i, LineOK l := by
  refine Item.indOn ?_
  intro i IH l hl
  obtain ⟨k, n, et, ln, col, d, ms⟩ := i
  simp only [Item.members] at IH
  have he : emitFrags (Item.mk k n et ln col d ms) =
      handlerFrags (Item.mk k n et ln col d ms) ++ emitFragsList ms ++ endScopeFrags k := by
    simp [emitFrags]
  rw [he] at hl
  have hlist0 : ∀ ts : List Item, (∀ m ∈ ts, ∀ l2 ∈ emitFrags m, LineOK l2) →
      ∀ l2 ∈ emitFragsList ts, LineOK l2 := by
    intro ts
    induction ts with
    | nil =>
      intro _ l2 hl2
      simp [emitFragsList] at hl2
    | cons m rest ih =>
      intro hts l2 hl2
      have he2 : emitFragsList (m :: rest) = emitFrags m ++ emitFragsList rest := by
        simp [emitFragsList]
      rw [he2] at hl2
      rcases List.mem_append.mp hl2 with h1 | h2
      · exact hts m (by simp) l2 h1
      · exact ih (fun m2 hm2 => hts m2 (by simp [hm2])) l2 h2
  have hlist : ∀ l2 ∈ emitFragsList ms, LineOK l2 :=
    hlist0 ms (fun m hm => IH m hm)
  rcases List.mem_append.mp hl with h1 | h2
  · rcases List.mem_append.mp h1 with h3 | h4
    · unfold handlerFrags at h3
      simp only [Item.kind, Item.name] at h3
      cases hkf : kind_functions k with
      | none => rw [hkf] at h3; cases h3
      | some h =>
        rw [hkf] at h3
        cases h with
        | skipH => cases h3
        | namespaceH =>
          simp at h3
          rw [h3]
          exact lineOK_nsFrag n
        | structDeclH => exact lineOK_structDeclFrags _ l h3
        | constructorH => exact lineOK_constructorFrags _ l h3
        | inclusionH => cases h3
    · exact hlist l h4
  · exact lineOK_endScopeFrags k l h2

theorem emit_has_non_ns :
    ∀ i : Item, hasEmitter i = true →
      ∃ l, l ∈ emitFrags i ∧ (str "namespace").isPrefixOf l = false := by
  refine Item.indOn ?_
  intro i IH hem
  obtain ⟨k, n, et, ln, col, d, ms⟩ := i
  simp only [Item.members] at IH
  have he : emitFrags (Item.mk k n et ln col d ms) =
      handlerFrags (Item.mk k n et ln col d ms) ++ emitFragsList ms ++ endScopeFrags k := by
    simp [emitFrags]
  have hem2 : (k = "NAMESPACE" ∨ k = "STRUCT_DECL") ∨ hasEmitterList ms = true := by
    simpa [hasEmitter] using hem
  rcases hem2 with hk | hms
  · rcases hk with hk1 | hk2
    · have hkn : k = "NAMESPACE" := hk1
      subst hkn
      refine ⟨str "\x7d", ?_, by decide⟩
      rw [he]
      refine List.mem_append.mpr (Or.inr ?_)
      decide
    · have hks : k = "STRUCT_DECL" := hk2
      subst hks
      refine ⟨structHeadLine (Item.mk "STRUCT_DECL" n et ln col d ms), ?_, ?_⟩
      · rw [he]
        refine List.mem_append.mpr (Or.inl (List.mem_append.mpr (Or.inl ?_)))
        have hfr : handlerFrags (Item.mk "STRUCT_DECL" n et ln col d ms) =
            structDeclFrags (Item.mk "STRUCT_DECL" n et ln col d ms) := rfl
        rw [hfr]
        simp [structDeclFrags]
      · simp only [structHeadLine]
        split
        · exact ns9_head_ne 'p' _ (by decide)
        · exact ns9_head_ne 'p' _ (by decide)
  · have hfind : ∀ ts : List Item, hasEmitterList ts = true →
        ∃ m ∈ ts, hasEmitter m = true := by
      intro ts
      induction ts with
      | nil => intro hts; simp [hasEmitterList] at hts
      | cons m2 rest ih =>
        intro hts
        have hts2 : hasEmitter m2 = true ∨ hasEmitterList rest = true := by
          simpa [hasEmitterList] using hts
        rcases hts2 with h1 | h2
        · exact ⟨m2, by simp, h1⟩
        · obtain ⟨m3, hm3, h3⟩ := ih h2
          exact ⟨m3, by simp [hm3], h3⟩
    obtain ⟨m, hm, hem3⟩ := hfind ms hms
    obtain ⟨l, hl, h9⟩ := IH m hm hem3
    refine ⟨l, ?_, h9⟩
    rw [he]
    exact List.mem_append.mpr (Or.inl (List.mem_append.mpr (Or.inr (mem_emitFragsList hm hl))))

theorem prepend_balanced :
    ∀ (L : List Str) (k : Nat),
      (∀ l ∈ L, LineOK l) →
      (∃ l ∈ L, (str "namespace").isPrefixOf l = false) →
      runTok (toksOf L) (List.replicate k .brace) = some [] →
      runTok (toksOf (prependModule (str "pcl") L) ++ [Tok.closeB])
        (List.replicate k .brace) = some [] := by
  intro L
  induction L with
  | nil =>
    intro k _ hex _
    obtain ⟨l, hl, _⟩ := hex
    cases hl
  | cons l ls ih =>
    intro k hok hex hbal
    by_cases h9 : (str "namespace").isPrefixOf l = true
    · have hcl : classify l = [Tok.openB] := (hok l (by simp)).2 h9
      have hbal2 : runTok (toksOf ls) (List.replicate (k + 1) .brace) = some [] := by
        have : toksOf (l :: ls) = Tok.openB :: toksOf ls := by simp [toksOf, hcl]
        rw [this] at hbal
        simpa [runTok, List.replicate_succ] using hbal
      have hex2 : ∃ l2 ∈ ls, (str "namespace").isPrefixOf l2 = false := by
        obtain ⟨l2, hl2, h2⟩ := hex
        rcases List.mem_cons.mp hl2 with rfl | hmem
        · rw [h9] at h2; cases h2
        · exact ⟨l2, hmem, h2⟩
      have hpp : prependModule (str "pcl") (l :: ls) = l :: prependModule (str "pcl") ls := by
        simp [prependModule, h9]
      rw [hpp]
      have : toksOf (l :: prependModule (str "pcl") ls) ++ [Tok.closeB] =
          Tok.openB :: (toksOf (prependModule (str "pcl") ls) ++ [Tok.closeB]) := by
        simp [toksOf, hcl]
      rw [this]
      have hgoal := ih (k + 1) (fun x hx => hok x (by simp [hx])) hex2 hbal2
      simpa [runTok, List.replicate_succ] using hgoal
    · have h9f : (str "namespace").isPrefixOf l = false :=
        Bool.not_eq_true _ ▸ eq_false_of_ne_true h9
      have hpp : prependModule (str "pcl") (l :: ls) =
          (moduleTok (str "pcl") ++ l) :: ls := by
        simp [prependModule, h9f]
      rw [hpp]
      have hcm : classify (moduleTok (str "pcl") ++ l) = Tok.openB :: classify l := by
        rw [classify_mod l, (hok l (by simp)).1]
      have hword : toksOf ((moduleTok (str "pcl") ++ l) :: ls) ++ [Tok.closeB] =
          Tok.openB :: ((classify l ++ toksOf ls) ++ [Tok.closeB]) := by
        simp [toksOf, hcm]
      rw [hword]
      have hbal2 : runTok (classify l ++ toksOf ls) (List.replicate k .brace) = some [] := by
        have : toksOf (l :: ls) = classify l ++ toksOf ls := by simp [toksOf]
        rwa [this] at hbal
      have hfr := runTok_frame _ _ _ [BK.brace] hbal2
      simp only [List.nil_append] at hfr
      have hrep : BK.brace :: List.replicate k BK.brace =
          List.replicate k BK.brace ++ [BK.brace] := by
        rw [← List.replicate_succ, List.replicate_succ']
      simp only [runTok, hrep]
      rw [runTok_append]
      rw [hfr]
      rfl

theorem toksOf_handle_final (f : Str) (L : List Str) :
    toksOf (handle_final f (str "pcl") L) =
      toksOf (prependModule (str "pcl") L) ++ [Tok.closeB] := by
  have hinc : classify (str "#include <" ++ (f ++ str ">")) = [] :=
    classify_of_head '#' _ (by decide) (by decide) (by decide) (by decide) (by decide)
  have hbp : toksOf initial_pybind_lines = [] := by decide
  have hcb : classify (str "\x7d") = [Tok.closeB] := by decide
  have he : handle_final f (str "pcl") L =
      (str "#include <" ++ (f ++ str ">")) ::
        (initial_pybind_lines ++ prependModule (str "pcl") L ++ [str "\x7d"]) := rfl
  rw [he]
  rw [show toksOf ((str "#include <" ++ (f ++ str ">")) ::
      (initial_pybind_lines ++ prependModule (str "pcl") L ++ [str "\x7d"])) =
      classify (str "#include <" ++ (f ++ str ">")) ++
        toksOf (initial_pybind_lines ++ prependModule (str "pcl") L ++ [str "\x7d"])
    from by simp [toksOf]]
  rw [hinc]
  rw [toksOf_append, toksOf_append, hbp]
  simp [toksOf, hcb]

theorem generate_some_ok (i : Item) (hreg : allRegistered i = true) :
    generate (some i) =
      .ok (handle_final ((i.name.splitOn '/').getLastD []) (str "pcl") (emitFrags i)) := by
  have hb : bindRun i =
      .ok { state_stack := [], linelist := [] ++ emitFrags i,
            skipped := [] ++ skipRecs i } :=
    handle_node_ok i hreg _
  simp [generate, hb]

instance {e a : Type} [DecidableEq e] [DecidableEq a] : DecidableEq (Except e a) := by
  intro x y
  cases x <;> cases y
  case error.error v w =>
    by_cases h : v = w
    · exact isTrue (by rw [h])
    · exact isFalse (by intro hc; cases hc; exact h rfl)
  case error.ok v w => exact isFalse (by intro hc; cases hc)
  case ok.error v w => exact isFalse (by intro hc; cases hc)
  case ok.ok v w =>
    by_cases h : v = w
    · exact isTrue (by rw [h])
    · exact isFalse (by intro hc; cases hc; exact h rfl)

/-! ## Claim theorems -/

/-- C1 (amended): for every input tree whose kinds are all registered,
that contains no CLASS_DECL and no CLASS_TEMPLATE node, and that contains
at least one NAMESPACE or STRUCT_DECL node, generate succeeds and its
output is balanced: the scope tokens match in LIFO order under the stack
automaton and the number of opening tokens equals the number of closing
tokens. -/
theorem c1_balance_amended (i : Item) (h1 : allRegistered i = true)
    (h2 : noCdCt i = true) (h3 : hasEmitter i = true) :
    ∃ ls, generate (some i) = .ok ls ∧
      runTok (toksOf ls) [] = some [] ∧
      countOpens (toksOf ls) = countCloses (toksOf ls) := by
  refine ⟨handle_final ((i.name.splitOn '/').getLastD []) (str "pcl") (emitFrags i),
    generate_some_ok i h1, ?_⟩
  have hbal0 : runTok (toksOf (emitFrags i)) [] = some [] := emit_balanced i h1 h2
  have hb : runTok (toksOf (prependModule (str "pcl") (emitFrags i)) ++ [Tok.closeB])
      [] = some [] := by
    have hpre := prepend_balanced (emitFrags i) 0 (emit_lineOK i) (emit_has_non_ns i h3)
    exact hpre hbal0
  have htk := toksOf_handle_final ((i.name.splitOn '/').getLastD []) (emitFrags i)
  rw [htk]
  refine ⟨hb, ?_⟩
  have hc := runTok_count _ [] [] hb
  simpa using hc

/-- C1 counterexample: on the translation unit with no members the claim
fails as stated: generate succeeds, yet the emitted output has zero
opening scope tokens and one closing token (the final brace appended by
handle_final with no module opening inserted). -/
theorem c1_balance_counterexample :
    isOkE (generate (some (Item.mk "TRANSLATION_UNIT" (str "f.h") "" 1 1 0 []))) = true ∧
    countOpens (toksOf (okLines
      (generate (some (Item.mk "TRANSLATION_UNIT" (str "f.h") "" 1 1 0 []))))) = 0 ∧
    countCloses (toksOf (okLines
      (generate (some (Item.mk "TRANSLATION_UNIT" (str "f.h") "" 1 1 0 []))))) = 1 := by
  decide

/-- Witness for C1 (amended) at a concrete tree: a translation unit
holding one namespace with one struct. -/
theorem c1_balance_witness :
    ∃ ls, generate (some (Item.mk "TRANSLATION_UNIT" (str "a/f.h") "" 1 1 0
        [Item.mk "NAMESPACE" (str "ns") "" 2 1 1
          [Item.mk "STRUCT_DECL" (str "S") "" 3 1 2 []]])) = .ok ls ∧
      runTok (toksOf ls) [] = some [] ∧
      countOpens (toksOf ls) = countCloses (toksOf ls) :=
  c1_balance_amended _ (by decide) (by decide) (by decide)

/-- C2 (amended): the walker recurses into the members of every visited
node, whatever the dispatched policy: the guard of the source,
`self.kind_functions[self.kind] is not self.skip`, compares a stored
bound-method object against a freshly created one and therefore always
holds.  For every fully registered tree, handle_node succeeds and its
skipped list extends the input by skipRecs, which collects one record per
skip-policy node over the whole subtree in preorder, including the
descendants of delegate-to-parent and needs-review nodes. -/
theorem c2_recursion_amended (i : Item) (h1 : allRegistered i = true) (s : BState) :
    handle_node i s =
      .ok { state_stack := s.state_stack,
            linelist := s.linelist ++ emitFrags i,
            skipped := s.skipped ++ skipRecs i } :=
  handle_node_ok i h1 s

/-- C2 counterexample: a CXX_METHOD node (a delegate-to-parent kind) with
one VAR_DECL child.  The claim says no child of such a node is visited,
but the child is visited and leaves its own skip record. -/
theorem c2_recursion_counterexample :
    handle_node
      (Item.mk "CXX_METHOD" (str "m") "" 5 8 1
        [Item.mk "VAR_DECL" (str "v") "" 6 9 2 []])
      { state_stack := [], linelist := [], skipped := [] } =
    .ok { state_stack := [], linelist := [],
          skipped := [{ line := 5, column := 5, kind := "CXX_METHOD", name := str "m" },
                      { line := 6, column := 6, kind := "VAR_DECL", name := str "v" }] } := by
  decide

/-- Witness for C2 (amended) at a concrete tree: a FUNCTION_DECL
(needs-review kind) holding a PARM_DECL child. -/
theorem c2_recursion_witness :
    handle_node
      (Item.mk "FUNCTION_DECL" (str "f") "" 4 2 1
        [Item.mk "PARM_DECL" (str "p") "Int" 4 5 2 []])
      { state_stack := [], linelist := [], skipped := [] } =
      .ok { state_stack := [],
            linelist := [] ++ emitFrags (Item.mk "FUNCTION_DECL" (str "f") "" 4 2 1
              [Item.mk "PARM_DECL" (str "p") "Int" 4 5 2 []]),
            skipped := [] ++ skipRecs (Item.mk "FUNCTION_DECL" (str "f") "" 4 2 1
              [Item.mk "PARM_DECL" (str "p") "Int" 4 5 2 []]) } :=
  c2_recursion_amended _ (by decide) _

/-- C3 (code evaluated at the failing input): on exit from a CLASS_DECL
node the code appends no closing fragment at all, while the STRUCT_DECL
twin is closed with ";".  end_scope tests STRUCT_DECL twice (a duplicated
branch) and has no CLASS_DECL branch. -/
theorem c3_class_decl_close_bug :
    handle_node (Item.mk "CLASS_DECL" (str "C") "" 1 1 1 [])
      { state_stack := [], linelist := [], skipped := [] } =
      .ok { state_stack := [],
            linelist := [str "py::class_<C>(m, \"C\")", str ".def(py::init<>())"],
            skipped := [] } ∧
    handle_node (Item.mk "STRUCT_DECL" (str "S") "" 1 1 1 [])
      { state_stack := [], linelist := [], skipped := [] } =
      .ok { state_stack := [],
            linelist := [str "py::class_<S>(m, \"S\")", str ".def(py::init<>())", str ";"],
            skipped := [] } := by
  decide

/-- C9 (code evaluated at the failing input): a skipped VAR_DECL node with
source line 3 and source column 7 leaves one record whose column field
holds 3 — the line number — because bind.skip reads item["line"] for the
"column" key. -/
theorem c9_skiprecord_bug :
    handle_node (Item.mk "VAR_DECL" (str "v") "" 3 7 1 [])
      { state_stack := [], linelist := [], skipped := [] } =
      .ok { state_stack := [], linelist := [],
            skipped := [{ line := 3, column := 3, kind := "VAR_DECL", name := str "v" }] } := by
  decide

/-- C8: generate raises exactly on an absent or falsy input document
(reported as the input error) and on any tree holding a node kind with no
registry entry (reported as a KeyError, never silently dropped); on every
other tree it returns the line list.  Kinds registered as unsure or
needs-review map to bind.skip and never raise. -/
theorem c8_generate_errors :
    generate none = .error .emptyJson ∧
    ∀ i : Item, isOkE (generate (some i)) = allRegistered i ∧
      isKeyErrE (generate (some i)) = !allRegistered i := by
  refine ⟨rfl, fun i => ?_⟩
  by_cases h : allRegistered i = true
  · rw [generate_some_ok i h, h]
    exact ⟨rfl, rfl⟩
  · have hf : allRegistered i = false := by simpa using h
    have hk : isKeyErrE (bindRun i) = true :=
      handle_node_err i hf { state_stack := [], linelist := [], skipped := [] }
    cases hres : bindRun i with
    | error e =>
      rw [hres] at hk
      cases e with
      | emptyJson => simp [isKeyErrE] at hk
      | keyError k2 => simp [generate, hres, isOkE, isKeyErrE, hf]
    | ok b =>
      rw [hres] at hk
      simp [isKeyErrE] at hk

/-- C10: the loop of handle_final leaves any empty or all-namespace
linelist untouched (no module-opening text appears, and the final closing
brace is still appended last), and in every other case glues the
module-opening text onto exactly the first line that does not start with
"namespace", leaving all other lines as they were. -/
theorem c10_module_insertion :
    (∀ f m L, (∀ l ∈ L, (str "namespace").isPrefixOf l = true) →
      handle_final f m L =
        (str "#include <" ++ (f ++ str ">")) ::
          (initial_pybind_lines ++ L ++ [str "\x7d"])) ∧
    (∀ f m A l R, (∀ p ∈ A, (str "namespace").isPrefixOf p = true) →
      (str "namespace").isPrefixOf l = false →
      handle_final f m (A ++ l :: R) =
        (str "#include <" ++ (f ++ str ">")) ::
          (initial_pybind_lines ++ (A ++ (moduleTok m ++ l) :: R) ++ [str "\x7d"])) := by
  constructor
  · intro f m L h
    simp [handle_final, prependModule_all_ns m L h]
  · intro f m A l R hA hl
    simp [handle_final, prependModule_split m A l R hA hl]

/-- Witness for C10 at concrete lists: one all-namespace linelist is left
unchanged with the final brace appended, and one linelist whose second
line is ";" receives the module text exactly there. -/
theorem c10_module_insertion_witness :
    handle_final (str "f.h") (str "pcl") [nsFrag (str "x")] =
      (str "#include <" ++ (str "f.h" ++ str ">")) ::
        (initial_pybind_lines ++ [nsFrag (str "x")] ++ [str "\x7d"]) ∧
    handle_final (str "f.h") (str "pcl") ([nsFrag (str "x")] ++ str ";" :: []) =
      (str "#include <" ++ (str "f.h" ++ str ">")) ::
        (initial_pybind_lines ++
          ([nsFrag (str "x")] ++ (moduleTok (str "pcl") ++ str ";") :: []) ++
          [str "\x7d"]) := by
  constructor
  · refine c10_module_insertion.1 _ _ _ ?_
    intro l hl
    simp only [List.mem_singleton] at hl
    rw [hl]
    decide
  · refine c10_module_insertion.2 _ _ _ _ _ ?_ (by decide)
    intro p hp
    simp only [List.mem_singleton] at hp
    rw [hp]
    decide

theorem gfaList_eq (ms : List Item) :
    gfaList ms = ms.flatMap
      (fun m => if m.kind = "FIELD_DECL" then [m]
        else if m.kind = "ANONYMOUS_UNION_DECL" ∨ m.kind = "ANONYMOUS_STRUCT_DECL" then
          get_fields_from_anonymous m
        else []) := by
  induction ms with
  | nil => rfl
  | cons m rest ih => simp [gfaList, ih]

/-- C4 (amended): the fragments of handle_struct_decl come in the fixed
order registration line, default-constructor line, all anonymous-flattened
fields, then ONE pass over the members in source order in which a
FIELD_DECL contributes its field fragment and a CXX_METHOD its method
fragment inside the same iteration — so fields and methods stay
interleaved by declaration order rather than all fields coming first.
When all fields precede all methods in the source, the claimed order
holds, as on the two-fields-then-method example. -/
theorem c4_order_amended :
    (∀ i : Item, structDeclFrags i =
      structHeadLine i :: str ".def(py::init<>())" ::
        (anonPassLines i ++ i.members.flatMap
          (fun sub =>
            (if sub.kind = "FIELD_DECL" then [fieldLine i.name sub] else []) ++
            (if sub.kind = "CXX_METHOD" then
              (if ¬ (isSubstring sub.name (str "PCL_DEPRECATED")) then
                [methodLine i.name sub.name]
              else [])
            else [])))) ∧
    structDeclFrags (Item.mk "STRUCT_DECL" (str "S") "" 1 1 1
        [Item.mk "FIELD_DECL" (str "f1") "Int" 2 3 2 [],
         Item.mk "FIELD_DECL" (str "f2") "Int" 3 3 2 [],
         Item.mk "CXX_METHOD" (str "m1") "Int" 4 3 2 []]) =
      [str "py::class_<S>(m, \"S\")", str ".def(py::init<>())",
       str ".def_readwrite(\"f1\", &S::f1)",
       str ".def_readwrite(\"f2\", &S::f2)",
       str ".def(\"m1\", py::overload_cast<>(&S::m1))"] := by
  exact ⟨fun i => rfl, by decide⟩

/-- C4 counterexample: a struct declaring a method before a field.  The
emitted method fragment precedes the field fragment, refuting the claim
that every direct field fragment precedes every method fragment. -/
theorem c4_order_counterexample :
    structDeclFrags (Item.mk "STRUCT_DECL" (str "S") "" 1 1 1
        [Item.mk "CXX_METHOD" (str "go") "Int" 2 3 2 [],
         Item.mk "FIELD_DECL" (str "x") "Int" 3 3 2 []]) =
      [str "py::class_<S>(m, \"S\")", str ".def(py::init<>())",
       str ".def(\"go\", py::overload_cast<>(&S::go))",
       str ".def_readwrite(\"x\", &S::x)"] := by
  decide

/-- C5 (amended): the flattening pass runs get_fields_from_anonymous on
every immediate child of the aggregate, whatever the kind of the child;
below that first level the descent continues only through anonymous union
or struct members, collecting FIELD_DECL members in encounter order with
no fragment for the wrapper layers.  On struct S holding an anonymous
union holding an anonymous struct with fields a and b, exactly the two
member-exposure fragments for a and b are emitted. -/
theorem c5_flatten_amended :
    (∀ i : Item, anonPassLines i =
      i.members.flatMap
        (fun sub => (get_fields_from_anonymous sub).map (fieldLine i.name))) ∧
    (∀ c : Item, get_fields_from_anonymous c =
      c.members.flatMap
        (fun m => if m.kind = "FIELD_DECL" then [m]
          else if m.kind = "ANONYMOUS_UNION_DECL" ∨ m.kind = "ANONYMOUS_STRUCT_DECL" then
            get_fields_from_anonymous m
          else [])) ∧
    structDeclFrags (Item.mk "STRUCT_DECL" (str "S") "" 1 1 1
        [Item.mk "ANONYMOUS_UNION_DECL" (str "") "" 2 2 2
          [Item.mk "ANONYMOUS_STRUCT_DECL" (str "") "" 3 3 3
            [Item.mk "FIELD_DECL" (str "a") "Int" 4 4 4 [],
             Item.mk "FIELD_DECL" (str "b") "Int" 5 5 4 []]]]) =
      [str "py::class_<S>(m, \"S\")", str ".def(py::init<>())",
       str ".def_readwrite(\"a\", &S::a)",
       str ".def_readwrite(\"b\", &S::b)"] := by
  refine ⟨fun i => rfl, fun c => ?_, by decide⟩
  obtain ⟨k, n, et, ln, col, d, ms⟩ := c
  simp only [get_fields_from_anonymous, Item.members]
  exact gfaList_eq ms

/-- C5 counterexample: a named, non-anonymous nested STRUCT_DECL child
still contributes its FIELD_DECL members as flattened fragments on the
outer aggregate, refuting the claim that only anonymous-union or
anonymous-struct children are flattened. -/
theorem c5_flatten_counterexample :
    structDeclFrags (Item.mk "STRUCT_DECL" (str "Outer") "" 1 1 1
        [Item.mk "STRUCT_DECL" (str "Inner") "" 2 2 2
          [Item.mk "FIELD_DECL" (str "x") "Int" 3 3 3 []]]) =
      [str "py::class_<Outer>(m, \"Outer\")", str ".def(py::init<>())",
       str ".def_readwrite(\"x\", &Outer::x)"] := by
  decide

/-- C6 (code evaluated at the failing input): a method named "P" differs
from the marker "PCL_DEPRECATED" yet emits no method fragment, because the
source guard is substring membership in the marker string (a parenthesised
string, not a one-element tuple); the sibling method "foo" is emitted.  A
method literally named "PCL_DEPRECATED" emits no fragment and leaves
exactly one skip record, as the claim says. -/
theorem c6_deprecated_bug :
    structDeclFrags (Item.mk "STRUCT_DECL" (str "S") "" 1 1 1
        [Item.mk "CXX_METHOD" (str "P") "Int" 2 3 2 [],
         Item.mk "CXX_METHOD" (str "foo") "Int" 3 3 2 []]) =
      [str "py::class_<S>(m, \"S\")", str ".def(py::init<>())",
       str ".def(\"foo\", py::overload_cast<>(&S::foo))"] ∧
    isSubstring (str "P") (str "PCL_DEPRECATED") = true ∧
    str "P" ≠ str "PCL_DEPRECATED" ∧
    handle_node (Item.mk "STRUCT_DECL" (str "T") "" 1 1 1
        [Item.mk "CXX_METHOD" (str "PCL_DEPRECATED") "Int" 2 3 2 []])
      { state_stack := [], linelist := [], skipped := [] } =
      .ok { state_stack := [],
            linelist := [str "py::class_<T>(m, \"T\")", str ".def(py::init<>())", str ";"],
            skipped := [{ line := 2, column := 2, kind := "CXX_METHOD",
                          name := str "PCL_DEPRECATED" }] } := by
  refine ⟨by decide, by decide, by decide, by decide⟩

/-- C7 (amended): handle_constructor appends at most one fragment; the
fragment is present exactly when the comma-joined resolved parameter type
string is nonempty (a reference or namespace-qualified parameter resolves
to one entry per nested TYPE_REF child, so it can contribute zero or
several entries), and the fragment is the init registration of that
joined string. -/
theorem c7_constructor_amended (i : Item) :
    (constructorFrags i).length ≤ 1 ∧
    ((constructorFrags i = []) ↔ joinedParamTypes i = []) ∧
    constructorFrags i =
      (if joinedParamTypes i = [] then []
       else [str ".def(py::init<" ++ joinedParamTypes i ++ str ">())"]) := by
  unfold constructorFrags
  by_cases h : joinedParamTypes i = [] <;> simp [h]

/-- C7 counterexample: a constructor with one formal parameter of
reference type whose node has no TYPE_REF child appends no fragment at
all, refuting the claim that a constructor with parameters appends
exactly one fragment holding one resolved type per parameter. -/
theorem c7_constructor_counterexample :
    constructorFrags (Item.mk "CONSTRUCTOR" (str "S") "" 7 1 3
        [Item.mk "PARM_DECL" (str "p") "LValueReference" 7 5 4 []]) = [] ∧
    (Item.mk "CONSTRUCTOR" (str "S") "" 7 1 3
        [Item.mk "PARM_DECL" (str "p") "LValueReference" 7 5 4 []]).members.length = 1 := by
  decide
